import Mathlib

/-!
Verification of the construction-QA document ingestion and retrieval core
(`knowledge_base/`): a shallow embedding of `vector_retriever.py`,
`chroma_manager.py` and `pdf_processor.py`, with the external collaborators
(PDF loader, embedding provider, underlying Chroma index) abstracted as
environment functions, followed by theorems about the embedded operations.
-/

namespace ConstructionQA

/-- Python's `str.lower()` applied characterwise (`Char.toLower` models the
per-character lowering; characters without a case, e.g. CJK, are unchanged). -/
def pyLower (s : String) : String :=
  String.mk (s.data.map Char.toLower)

/-- Python's substring test `needle in hay` on character lists. -/
def hasSub (needle : List Char) : List Char → Bool
  | [] => needle.isEmpty
  | c :: rest => needle.isPrefixOf (c :: rest) || hasSub needle rest

/-- Python's `needle in hay` on strings. -/
def containsSub (hay needle : String) : Bool :=
  hasSub needle.data hay.data

/-- `langchain_core.documents.Document`: page text plus metadata
(metadata modelled as an association list of string key/value pairs). -/
structure Document where
  page_content : String
  metadata : List (String × String)
deriving DecidableEq

/-- Errors raised by the core (`ValueError` / `RuntimeError` variants,
distinguished by the site that raises them). -/
inductive PError where
  /-- `ValueError`: no PDF files found in the directory (`load_pdf_files`). -/
  | noInput : PError
  /-- `RuntimeError`: a PDF file failed to load (`load_pdf_content`). -/
  | loadError : String → PError
  /-- `RuntimeError`: store write failed (`add_documents` / `insert_docs_chromadb`). -/
  | writeError : PError
  /-- infrastructure failure while reading from the store. -/
  | readError : PError
  /-- `RuntimeError`: wrapper raised by `process_pdfs` when the run fails. -/
  | runError : PError
deriving DecidableEq

/-- State of the Chroma collection: the inserted (id, document) records and
the counter used to mint fresh identifiers. -/
structure StoreState where
  entries : List (String × Document)
  nextId : Nat
deriving DecidableEq

/-- `ChromaManager.get_collection_stats`: the collection's record count. -/
def get_collection_stats (st : StoreState) : Nat :=
  st.entries.length

/-! ## Retrieval engine (`vector_retriever.py`) -/

/-- External collaborators of `VectorRetriever`: the embedding provider
(`embedding_function.embed_query`) and the raw Chroma `collection.query`
call (query embedding, `n_results`, `where` filter ↦ rows of
(document text, metadata)). -/
structure QueryEnv where
  embed : String → List Int
  rawQuery : List Int → Nat → Option (List (String × String)) → List (String × List (String × String))

/-- `VectorRetriever.similarity_search`: embed the query, run
`collection.query` with `n_results = top_k`, convert each row to a
`Document`. -/
def similarity_search (env : QueryEnv) (top_k : Nat) (query : String)
    (filter_conditions : Option (List (String × String))) : List Document :=
  (env.rawQuery (env.embed query) top_k filter_conditions).map
    (fun r => { page_content := r.1, metadata := r.2 })

/-- `VectorRetriever.hybrid_search`: vector search first; if `keyword` is
truthy (not `None`, not `""`), keep the vector results whose text contains
the keyword case-insensitively and truncate to `top_k`. -/
def hybrid_search (env : QueryEnv) (top_k : Nat) (query : String)
    (keyword : Option String)
    (filter_conditions : Option (List (String × String))) : List Document :=
  let vector_results := similarity_search env top_k query filter_conditions
  match keyword with
  | none => vector_results
  | some kw =>
    if kw = "" then vector_results
    else
      (vector_results.filter
        (fun doc => containsSub (pyLower doc.page_content) (pyLower kw))).take top_k

/-- The raw `collection.get(ids=[doc_id])` call: the documents stored under
the given identifier. -/
def collectionGet (st : StoreState) (doc_id : String) : List Document :=
  (st.entries.filter (fun e => e.1 = doc_id)).map (fun e => e.2)

/-- `VectorRetriever.get_by_id`: `collection.get(ids=[doc_id])`; empty
`documents` yields `None`, otherwise the first match. An infrastructure
failure of the underlying store (modelled by `readFails`) propagates as a
read error. -/
def get_by_id (readFails : Bool) (st : StoreState) (doc_id : String) :
    Except PError (Option Document) :=
  if readFails then .error PError.readError
  else
    match collectionGet st doc_id with
    | [] => .ok none
    | d :: _ => .ok (some d)

/-! ## Chunking pipeline (spec §4.2) -/

/-- Modelled from the spec: the concrete splitter used by
`PDFProcessor.split_text` is `langchain_text_splitters.RecursiveCharacterTextSplitter`,
third-party code absent from this repository. Following §4.2's words:
chunks are bounded by `chunk_size` `c`; "Overlap is applied by re-including
the trailing `overlap` characters of the previous chunk at the head of the
next", so each successive chunk starts `c - o` characters after the previous
one; each chunk carries its `start_offset` in the page. The separator-priority
choice of cut points is abstracted to the fixed-width fallback cut, which is
the placement that realises the spec's exact-`o`-overlap sentence. The fuel
argument (initially the page length) only enforces structural termination:
each step consumes `c - o ≥ 1` characters, so fuel ≥ remaining length. -/
def splitFromAux (c o : Nat) : Nat → List Char → Int → List (Int × List Char)
  | 0, text, pos => [(pos, text)]
  | fuel + 1, text, pos =>
    if text.length ≤ c ∨ c ≤ o then [(pos, text)]
    else (pos, text.take c) ::
      splitFromAux c o fuel (text.drop (c - o)) (pos + ((c - o : Nat) : Int))

/-- Modelled from the spec (§4.2): split one page's text into chunks with
start offsets; an empty page yields zero chunks. -/
def split (c o : Nat) (text : List Char) : List (Int × List Char) :=
  if text.isEmpty then [] else splitFromAux c o text.length text 0

/-! ## Vector store gateway (`chroma_manager.py`) and ingestion controller
(`pdf_processor.py`) -/

/-- External collaborators of the ingestion run: the directory listing
(`os.listdir`), the PDF loader (`PyMuPDFLoader.load`, `none` = raise), the
underlying store's failure behaviour for a given write
(`Chroma.add_documents` raising), and the processor's configuration. -/
structure Env where
  directory : String
  listing : List String
  loadPdf : String → Option (List Document)
  failsAt : List Document → StoreState → Bool
  chunksize : Nat
  overlap : Nat
  file_group_num : Nat
  batch_num : Nat

/-- `file.lower().endswith('.pdf')`. -/
def endsWithPdf (file : String) : Bool :=
  List.isSuffixOf ".pdf".data (pyLower file).data

/-- `os.path.join(directory, file)` for a plain file name. -/
def pathJoin (dir file : String) : String :=
  dir ++ "/" ++ file

/-- The PDF paths `PDFProcessor.load_pdf_files` collects before its
emptiness check. -/
def pdfFiles (env : Env) : List String :=
  (env.listing.filter endsWithPdf).map (pathJoin env.directory)

/-- `PDFProcessor.load_pdf_files`: scan the directory; raise `ValueError`
when no PDF file is found. -/
def load_pdf_files (env : Env) : Except PError (List String) :=
  if pdfFiles env = [] then .error PError.noInput else .ok (pdfFiles env)

/-- `PDFProcessor.load_pdf_content`: load one PDF's pages; a loader failure
is re-raised as `RuntimeError`. -/
def load_pdf_content (env : Env) (pdf_path : String) : Except PError (List Document) :=
  match env.loadPdf pdf_path with
  | none => .error (PError.loadError pdf_path)
  | some docs => .ok docs

/-- Stage 1 of `PDFProcessor.process_pdfs_group`: load every file of the
group in order, concatenating pages; the first loader failure aborts the
loop (the exception skips the remaining files of the group). -/
def loadGroup (env : Env) : List String → Except PError (List Document)
  | [] => .ok []
  | p :: ps =>
    match load_pdf_content env p with
    | .error e => .error e
    | .ok docs =>
      match loadGroup env ps with
      | .error e => .error e
      | .ok rest => .ok (docs ++ rest)

/-- `PDFProcessor.split_text`: split each page through the chunking
pipeline, tagging each chunk with its start offset (`add_start_index=True`). -/
def split_text (env : Env) (documents : List Document) : List Document :=
  (documents.map (fun d =>
    (split env.chunksize env.overlap d.page_content.data).map
      (fun ch => { page_content := String.mk ch.2,
                   metadata := d.metadata ++ [("start_index", toString ch.1)] }))).flatten

/-- `ChromaManager.add_documents`: empty input returns `[]` without touching
the store; otherwise the underlying `Chroma.add_documents` either fails
(re-raised as `RuntimeError`, modelled `writeError`) or appends the records
under fresh identifiers and returns them. -/
def add_documents (env : Env) (docs : List Document) (st : StoreState) :
    Except PError (List String × StoreState) :=
  if docs.isEmpty then .ok ([], st)
  else if env.failsAt docs st then .error PError.writeError
  else
    let ids := (List.range docs.length).map (fun i => "doc-" ++ toString (st.nextId + i))
    .ok (ids, { entries := st.entries ++ ids.zip docs, nextId := st.nextId + docs.length })

/-- `k` consecutive slices of width `b`: the batches the Python loop
`for i in range(0, len(docs), batch_size): docs[i:i+batch_size]` takes. -/
def chunkN (b : Nat) : Nat → List α → List (List α)
  | 0, _ => []
  | k + 1, l => l.take b :: chunkN b k (l.drop b)

/-- The batch sequence of `insert_docs_chromadb`: `(n + b - 1) / b`
slices of width `b` (the Python loop's iteration count `total_batches`). -/
def chunkList (b : Nat) (l : List α) : List (List α) :=
  chunkN b ((l.length + b - 1) / b) l

/-- The batched-write loop of `PDFProcessor.insert_docs_chromadb`: submit
each batch to `ChromaManager.add_documents` in order; the first failing
write raises (`RuntimeError`), terminating the loop with the batches
written so far committed. Returns the trace of store-write calls made, the
resulting store state, and the raised error if any. -/
def runBatches (env : Env) : List (List Document) → StoreState →
    List (List Document) × StoreState × Option PError
  | [], st => ([], st, none)
  | batch :: rest, st =>
    match add_documents env batch st with
    | .error e => ([batch], st, some e)
    | .ok (_, st') =>
      let r := runBatches env rest st'
      (batch :: r.1, r.2)

/-- `PDFProcessor.insert_docs_chromadb`: empty input returns immediately
(no store call); otherwise run the batched-write loop. -/
def insert_docs_chromadb (env : Env) (docs : List Document) (batch_size : Nat)
    (st : StoreState) : List (List Document) × StoreState × Option PError :=
  if docs.isEmpty then ([], st, none)
  else runBatches env (chunkList batch_size docs) st

/-- Outcome of one `process_pdfs_group` call: the store-write calls made,
the resulting store state, and the error caught and logged by the group's
`except` block, if any. The function itself never raises. -/
structure GroupResult where
  writeTrace : List (List Document)
  state : StoreState
  logged : Option PError

/-- `PDFProcessor.process_pdfs_group`: load the group's files, split the
pages, insert the chunks; any failure is caught by the surrounding
`except`, logged, and absorbed (the commented-out `raise` is not executed). -/
def process_pdfs_group (env : Env) (group : List String) (st : StoreState) : GroupResult :=
  match loadGroup env group with
  | .error e => { writeTrace := [], state := st, logged := some e }
  | .ok pdf_contents =>
    if pdf_contents.isEmpty then { writeTrace := [], state := st, logged := none }
    else
      let docs := split_text env pdf_contents
      if docs.isEmpty then { writeTrace := [], state := st, logged := none }
      else
        let r := insert_docs_chromadb env docs env.batch_num st
        { writeTrace := r.1, state := r.2.1, logged := r.2.2 }

/-- Outcome of a whole `process_pdfs` run: the files dispatched to group
processing (in dispatch order), the run's store-write calls, the final
store state, the per-group logged errors, and the run's outcome
(`process_pdfs` raises `RuntimeError` only when the scan raises). -/
structure RunResult where
  attempted : List String
  writeTrace : List (List Document)
  state : StoreState
  groupLogs : List (Option PError)
  outcome : Except PError Unit

/-- The group loop of `process_pdfs`: process each group in order,
threading the store state; every group is processed regardless of earlier
groups' logged failures. -/
def runGroups (env : Env) : List (List String) → StoreState →
    List String × List (List Document) × StoreState × List (Option PError)
  | [], st => ([], [], st, [])
  | g :: gs, st =>
    let r := process_pdfs_group env g st
    let rest := runGroups env gs r.state
    (g ++ rest.1, r.writeTrace ++ rest.2.1, rest.2.2.1, r.logged :: rest.2.2.2)

/-- `PDFProcessor.process_pdfs`: scan the directory, then process the files
in groups of `file_group_num`; a scan failure is re-raised as
`RuntimeError`, and group failures never reach this level. -/
def process_pdfs (env : Env) (st : StoreState) : RunResult :=
  match load_pdf_files env with
  | .error _ =>
    { attempted := [], writeTrace := [], state := st, groupLogs := [],
      outcome := .error PError.runError }
  | .ok pdf_files =>
    let r := runGroups env (chunkList env.file_group_num pdf_files) st
    { attempted := r.1, writeTrace := r.2.1, state := r.2.2.1,
      groupLogs := r.2.2.2, outcome := .ok () }

/-! ## Concrete instances used as examples and witnesses -/

/-- The spec's hybrid-search example: a store whose vector search returns
the three construction-standard snippets. -/
def exQueryEnv : QueryEnv where
  embed := fun _ => []
  rawQuery := fun _ _ _ =>
    [("混凝土强度标准", []), ("钢筋检测规范", []), ("施工安全要求", [])]

/-- An empty collection. -/
def st0 : StoreState where
  entries := []
  nextId := 0

/-- A sample chunk. -/
def exDoc : Document where
  page_content := "hello text"
  metadata := []

/-- A directory with one loadable PDF over a store whose every write fails. -/
def envFail : Env where
  directory := "docs"
  listing := ["a.pdf"]
  loadPdf := fun _ => some [exDoc]
  failsAt := fun _ _ => true
  chunksize := 500
  overlap := 100
  file_group_num := 80
  batch_num := 6

/-- Two PDFs in groups of one: the first file fails to load, the second
processes cleanly. -/
def envTwo : Env where
  directory := "docs"
  listing := ["a.pdf", "b.pdf"]
  loadPdf := fun p => if p = "docs/a.pdf" then none else some [exDoc]
  failsAt := fun _ _ => false
  chunksize := 500
  overlap := 100
  file_group_num := 1
  batch_num := 6

/-- A directory with no matching (PDF) files. -/
def envEmpty : Env where
  directory := "docs"
  listing := ["notes.txt"]
  loadPdf := fun _ => none
  failsAt := fun _ _ => false
  chunksize := 500
  overlap := 100
  file_group_num := 80
  batch_num := 6

/-- A collection holding a single record under identifier "doc-0". -/
def stOne : StoreState where
  entries := [("doc-0", exDoc)]
  nextId := 1

/-! ## Helper lemmas on batching -/

lemma chunkN_length (b k : Nat) : ∀ l : List α, (chunkN b k l).length = k := by
  induction k with
  | zero => intro l; rfl
  | succ k ih => intro l; simp [chunkN, ih]

lemma chunkN_flatten (b : Nat) :
    ∀ (k : Nat) (l : List α), l.length ≤ k * b → (chunkN b k l).flatten = l := by
  intro k
  induction k with
  | zero =>
    intro l hl
    simp only [Nat.zero_mul, Nat.le_zero, List.length_eq_zero] at hl
    simp [chunkN, hl]
  | succ k ih =>
    intro l hl
    rw [Nat.succ_mul] at hl
    have hdrop : (l.drop b).length ≤ k * b := by
      rw [List.length_drop]; omega
    simp only [chunkN, List.flatten_cons, ih (l.drop b) hdrop]
    exact List.take_append_drop b l

lemma le_ceil_mul (b n : Nat) (hb : 0 < b) : n ≤ ((n + b - 1) / b) * b := by
  have h1 := Nat.div_add_mod (n + b - 1) b
  have h2 : (n + b - 1) % b < b := Nat.mod_lt _ hb
  rw [Nat.mul_comm]
  generalize hq : b * ((n + b - 1) / b) = t at h1 ⊢
  omega

lemma chunkList_flatten (b : Nat) (hb : 0 < b) (l : List α) :
    (chunkList b l).flatten = l :=
  chunkN_flatten b _ l (le_ceil_mul b l.length hb)

lemma chunkN_mem_length (b : Nat) :
    ∀ (k : Nat) (l : List α), ∀ batch ∈ chunkN b k l, batch.length ≤ b := by
  intro k
  induction k with
  | zero => intro l batch h; simp [chunkN] at h
  | succ k ih =>
    intro l batch h
    simp only [chunkN, List.mem_cons] at h
    rcases h with h | h
    · subst h; simp [List.length_take]
    · exact ih (l.drop b) batch h

lemma add_documents_error (env : Env) (d : List Document) (s : StoreState) (e : PError)
    (h : add_documents env d s = .error e) : e = PError.writeError := by
  unfold add_documents at h
  by_cases h1 : d.isEmpty
  · simp [h1] at h
  · by_cases h2 : env.failsAt d s <;> simp [h1, h2] at h
    exact h.symm

lemma add_documents_ok (env : Env) (d : List Document) (s : StoreState)
    (hf : ∀ d s, env.failsAt d s = false) :
    ∃ p, add_documents env d s = .ok p := by
  unfold add_documents
  by_cases h1 : d.isEmpty
  · rw [if_pos h1]; exact ⟨_, rfl⟩
  · rw [if_neg h1, if_neg (by simp [hf])]; exact ⟨_, rfl⟩

lemma runBatches_ok (env : Env) (hf : ∀ d s, env.failsAt d s = false) :
    ∀ (bs : List (List Document)) (st : StoreState),
      (runBatches env bs st).1 = bs ∧ (runBatches env bs st).2.2 = none := by
  intro bs
  induction bs with
  | nil => intro st; simp [runBatches]
  | cons batch rest ih =>
    intro st
    obtain ⟨⟨ids, st'⟩, hp⟩ := add_documents_ok env batch st hf
    simp [runBatches, hp, (ih st').1, (ih st').2]

lemma runBatches_error (env : Env) :
    ∀ (bs : List (List Document)) (st : StoreState) (e : PError),
      (runBatches env bs st).2.2 = some e → e = PError.writeError := by
  intro bs
  induction bs with
  | nil => intro st e h; simp [runBatches] at h
  | cons batch rest ih =>
    intro st e h
    cases hadd : add_documents env batch st with
    | error e' =>
      simp [runBatches, hadd] at h
      exact h ▸ add_documents_error env batch st e' hadd
    | ok p =>
      obtain ⟨ids, st'⟩ := p
      simp only [runBatches, hadd] at h
      exact ih st' e h

lemma runGroups_attempted (env : Env) :
    ∀ (gs : List (List String)) (st : StoreState),
      (runGroups env gs st).1 = gs.flatten := by
  intro gs
  induction gs with
  | nil => intro st; rfl
  | cons g gs ih => intro st; simp [runGroups, ih]

lemma runGroups_logs_length (env : Env) :
    ∀ (gs : List (List String)) (st : StoreState),
      (runGroups env gs st).2.2.2.length = gs.length := by
  intro gs
  induction gs with
  | nil => intro st; rfl
  | cons g gs ih => intro st; simp [runGroups, ih]

/-! ## Helper lemmas on the splitter -/

lemma splitFromAux_head (c o f : Nat) (text : List Char) (pos : Int) :
    ∃ t rest, splitFromAux c o f text pos = (pos, t) :: rest ∧
      (t = text ∨ t = text.take c) := by
  cases f with
  | zero => exact ⟨text, [], rfl, Or.inl rfl⟩
  | succ f =>
    by_cases h : text.length ≤ c ∨ c ≤ o
    · exact ⟨text, [], by rw [splitFromAux, if_pos h], Or.inl rfl⟩
    · exact ⟨text.take c,
        splitFromAux c o f (text.drop (c - o)) (pos + ((c - o : Nat) : Int)),
        by rw [splitFromAux, if_neg h], Or.inr rfl⟩

lemma splitFromAux_nonneg (c o : Nat) :
    ∀ (f : Nat) (text : List Char) (pos : Int), 0 ≤ pos →
      ∀ ch ∈ splitFromAux c o f text pos, 0 ≤ ch.1 := by
  intro f
  induction f with
  | zero =>
    intro text pos hpos ch hch
    simp only [splitFromAux, List.mem_singleton] at hch
    simp [hch, hpos]
  | succ f ih =>
    intro text pos hpos ch hch
    by_cases h : text.length ≤ c ∨ c ≤ o
    · rw [splitFromAux, if_pos h] at hch
      simp only [List.mem_singleton] at hch
      simp [hch, hpos]
    · rw [splitFromAux, if_neg h] at hch
      simp only [List.mem_cons] at hch
      rcases hch with h1 | h1
      · simp [h1, hpos]
      · exact ih _ _ (by positivity) ch h1

lemma splitFromAux_mono (c o : Nat) :
    ∀ (f : Nat) (text : List Char) (pos : Int),
      List.Chain' (fun a b => a.1 ≤ b.1) (splitFromAux c o f text pos) := by
  intro f
  induction f with
  | zero => intro text pos; simp [splitFromAux]
  | succ f ih =>
    intro text pos
    by_cases h : text.length ≤ c ∨ c ≤ o
    · rw [splitFromAux, if_pos h]; simp
    · rw [splitFromAux, if_neg h, List.chain'_cons']
      refine ⟨?_, ih _ _⟩
      intro y hy
      obtain ⟨t, rest, heq, _⟩ :=
        splitFromAux_head c o f (text.drop (c - o)) (pos + ((c - o : Nat) : Int))
      rw [heq] at hy
      simp only [List.head?_cons, Option.mem_def, Option.some.injEq] at hy
      subst hy
      simp only
      omega

lemma splitFromAux_overlap (c o : Nat) (ho : o < c) :
    ∀ (f : Nat) (text : List Char) (pos : Int),
      List.Chain' (fun a b => a.2.drop (a.2.length - o) = b.2.take o)
        (splitFromAux c o f text pos) := by
  intro f
  induction f with
  | zero => intro text pos; simp [splitFromAux]
  | succ f ih =>
    intro text pos
    by_cases h : text.length ≤ c ∨ c ≤ o
    · rw [splitFromAux, if_pos h]; simp
    · rw [splitFromAux, if_neg h, List.chain'_cons']
      refine ⟨?_, ih _ _⟩
      intro y hy
      obtain ⟨t, rest, heq, ht⟩ :=
        splitFromAux_head c o f (text.drop (c - o)) (pos + ((c - o : Nat) : Int))
      rw [heq] at hy
      simp only [List.head?_cons, Option.mem_def, Option.some.injEq] at hy
      subst hy
      push_neg at h
      obtain ⟨hlen, _⟩ := h
      have hc : c ≤ text.length := Nat.le_of_lt hlen
      have hlentake : (text.take c).length = c := by
        simp [List.length_take, Nat.min_eq_left hc]
      have hdt : (text.take c).drop (c - o) = (text.drop (c - o)).take o := by
        rw [List.drop_take]
        congr 1
        omega
      have htake : t.take o = (text.drop (c - o)).take o := by
        rcases ht with ht | ht
        · rw [ht]
        · rw [ht, List.take_take, Nat.min_eq_left (Nat.le_of_lt ho)]
      simp only [hlentake, hdt, htake]

/-! ## Claim theorems -/

/-- C1: for every query, filter and non-empty keyword, `hybrid_search` runs
`similarity_search` with the same `k`, keeps exactly the vector results whose
text contains the keyword as a case-insensitive substring, and truncates to
`k`; in particular, with keyword "混凝土" over the vector results
["混凝土强度标准","钢筋检测规范","施工安全要求"] it returns exactly
["混凝土强度标准"]. -/
theorem hybrid_search_keyword_filter (env : QueryEnv) (k : Nat) (q : String)
    (f : Option (List (String × String))) (kw : String) (hkw : kw ≠ "") :
    hybrid_search env k q (some kw) f
      = ((similarity_search env k q f).filter
          (fun doc => containsSub (pyLower doc.page_content) (pyLower kw))).take k ∧
    hybrid_search exQueryEnv 5 "施工标准" (some "混凝土") none
      = [{ page_content := "混凝土强度标准", metadata := [] }] := by
  refine ⟨?_, by decide⟩
  simp only [hybrid_search]
  rw [if_neg hkw]

/-- Witness for C1 at the spec's concrete example. -/
theorem hybrid_search_keyword_filter_witness :
    ("混凝土" : String) ≠ "" ∧
    (hybrid_search exQueryEnv 5 "施工标准" (some "混凝土") none
      = ((similarity_search exQueryEnv 5 "施工标准" none).filter
          (fun doc => containsSub (pyLower doc.page_content) (pyLower "混凝土"))).take 5 ∧
     hybrid_search exQueryEnv 5 "施工标准" (some "混凝土") none
      = [{ page_content := "混凝土强度标准", metadata := [] }]) :=
  ⟨by decide, hybrid_search_keyword_filter exQueryEnv 5 "施工标准" none "混凝土" (by decide)⟩

/-- C10: `hybrid_search` with an absent (`None`) or empty keyword returns
exactly the `similarity_search` result list on the same query and filter,
with no filtering and no additional truncation. -/
theorem hybrid_search_no_keyword (env : QueryEnv) (k : Nat) (q : String)
    (f : Option (List (String × String))) :
    hybrid_search env k q none f = similarity_search env k q f ∧
    hybrid_search env k q (some "") f = similarity_search env k q f := by
  constructor
  · rfl
  · simp [hybrid_search]

/-- C7: upserting the empty chunk sequence is a no-op: it returns the empty
identifier list, raises no error, and leaves the store unchanged. -/
theorem add_documents_empty_noop (env : Env) (st : StoreState) :
    add_documents env [] st = .ok ([], st) := by
  simp [add_documents]

/-- C9: `get_by_id` on an identifier never inserted returns the absent
sentinel (`None`) rather than raising; an error is raised only on
infrastructure failure, never for a mere non-match. -/
theorem get_by_id_absent (st : StoreState) (doc_id : String)
    (h : doc_id ∉ st.entries.map Prod.fst) :
    get_by_id false st doc_id = .ok none ∧
    (∀ (readFails : Bool) (s : StoreState) (i : String) (e : PError),
      get_by_id readFails s i = .error e → readFails = true) := by
  constructor
  · have hempty : collectionGet st doc_id = [] := by
      unfold collectionGet
      rw [List.filter_eq_nil_iff.mpr, List.map_nil]
      intro a ha
      simp only [decide_eq_true_eq]
      intro heq
      exact h (List.mem_map.mpr ⟨a, ha, heq⟩)
    simp [get_by_id, hempty]
  · intro readFails s i e herr
    cases readFails with
    | true => rfl
    | false =>
      rw [get_by_id, if_neg (by simp)] at herr
      cases hcg : collectionGet s i <;> simp [hcg] at herr

/-- Witness for C9: the identifier "missing" was never inserted into a
collection holding only "doc-0". -/
theorem get_by_id_absent_witness :
    "missing" ∉ stOne.entries.map Prod.fst ∧
    get_by_id false stOne "missing" = .ok none :=
  ⟨by decide, (get_by_id_absent stOne "missing" (by decide)).1⟩

/-- C4: for every page and all parameters with 0 ≤ o < c, every chunk's
start offset is nonnegative, offsets are non-decreasing in production order
within the page, and the trailing o characters of each chunk are textually
identical to the leading o characters of the next chunk of the same page. -/
theorem split_offsets_invariant (c o : Nat) (ho : o < c) (text : List Char) :
    (∀ ch ∈ split c o text, 0 ≤ ch.1) ∧
    List.Chain' (fun a b => a.1 ≤ b.1) (split c o text) ∧
    List.Chain' (fun a b => a.2.drop (a.2.length - o) = b.2.take o)
      (split c o text) := by
  unfold split
  by_cases h : text.isEmpty
  · simp [h]
  · rw [if_neg h]
    exact ⟨splitFromAux_nonneg c o text.length text 0 le_rfl,
           splitFromAux_mono c o text.length text 0,
           splitFromAux_overlap c o ho text.length text 0⟩

/-- Witness for C4 at c = 3, o = 1 over the page "abcde". -/
theorem split_offsets_invariant_witness :
    1 < 3 ∧
    List.Chain' (fun a b => a.1 ≤ b.1) (split 3 1 "abcde".data) ∧
    List.Chain' (fun a b => a.2.drop (a.2.length - 1) = b.2.take 1)
      (split 3 1 "abcde".data) :=
  ⟨by decide, (split_offsets_invariant 3 1 (by decide) "abcde".data).2.1,
   (split_offsets_invariant 3 1 (by decide) "abcde".data).2.2⟩

/-- C5: for all 0 ≤ o < c, splitting a (non-empty) page of length L ≤ c
yields exactly one chunk equal to the page text at offset 0, and splitting
an empty page yields zero chunks. -/
theorem split_edge_cases (c o : Nat) (ho : o < c) (text : List Char) :
    (text = [] → split c o text = []) ∧
    (text ≠ [] → text.length ≤ c → split c o text = [(0, text)]) := by
  constructor
  · intro h; simp [split, h]
  · intro hne hlen
    cases text with
    | nil => exact absurd rfl hne
    | cons x xs =>
      rw [split, if_neg (by simp)]
      show splitFromAux c o (xs.length + 1) (x :: xs) 0 = [(0, x :: xs)]
      rw [splitFromAux, if_pos (Or.inl hlen)]

/-- Witness for C5 at c = 5, o = 2 over the short page "abc" and the empty
page. -/
theorem split_edge_cases_witness :
    (2 < 5 ∧ ("abc".data ≠ [] ∧ "abc".data.length ≤ 5) ∧ ([] : List Char) = []) ∧
    split 5 2 "abc".data = [(0, "abc".data)] ∧ split 5 2 [] = [] :=
  ⟨⟨by decide, ⟨by decide, by decide⟩, rfl⟩,
   (split_edge_cases 5 2 (by decide) "abc".data).2 (by decide) (by decide),
   (split_edge_cases 5 2 (by decide) []).1 rfl⟩

/-- C2: over a (non-empty) discovered file list, a failure in one group is
caught and logged and the controller proceeds, so the run always reaches
its terminal state (`outcome = .ok ()`) with every discovered file
dispatched to group processing exactly once; a failure inside a single
store-write call is raised as a store-write error (`writeError`), and the
group level absorbs the batched-insert error into its log rather than
re-raising it. -/
theorem ingestion_isolation_and_completion (env : Env) (st : StoreState)
    (hfiles : pdfFiles env ≠ []) (hgroup : 0 < env.file_group_num) :
    (process_pdfs env st).outcome = .ok () ∧
    (process_pdfs env st).attempted = pdfFiles env ∧
    (∀ file, (process_pdfs env st).attempted.count file = (pdfFiles env).count file) ∧
    (process_pdfs env st).groupLogs.length
      = (chunkList env.file_group_num (pdfFiles env)).length ∧
    (∀ (bs : List (List Document)) (s : StoreState) (e : PError),
      (runBatches env bs s).2.2 = some e → e = PError.writeError) ∧
    (∀ (group : List String) (s : StoreState) (contents : List Document),
      loadGroup env group = .ok contents → contents.isEmpty = false →
      (split_text env contents).isEmpty = false →
      (process_pdfs_group env group s).logged
        = (insert_docs_chromadb env (split_text env contents) env.batch_num s).2.2) := by
  have hload : load_pdf_files env = .ok (pdfFiles env) := by
    rw [load_pdf_files, if_neg hfiles]
  have hp : process_pdfs env st =
      { attempted := (runGroups env (chunkList env.file_group_num (pdfFiles env)) st).1,
        writeTrace := (runGroups env (chunkList env.file_group_num (pdfFiles env)) st).2.1,
        state := (runGroups env (chunkList env.file_group_num (pdfFiles env)) st).2.2.1,
        groupLogs := (runGroups env (chunkList env.file_group_num (pdfFiles env)) st).2.2.2,
        outcome := .ok () } := by
    simp only [process_pdfs, hload]
  have hatt : (process_pdfs env st).attempted = pdfFiles env := by
    rw [hp]
    show (runGroups env (chunkList env.file_group_num (pdfFiles env)) st).1 = _
    rw [runGroups_attempted, chunkList_flatten _ hgroup]
  refine ⟨by rw [hp], hatt, fun file => by rw [hatt], ?_, ?_, ?_⟩
  · rw [hp]
    show (runGroups env (chunkList env.file_group_num (pdfFiles env)) st).2.2.2.length = _
    rw [runGroups_logs_length]
  · exact fun bs s e h => runBatches_error env bs s e h
  · intro group s contents hl h1 h2
    simp only [process_pdfs_group, hl, h1, h2, Bool.false_eq_true, if_false]

/-- Witness for C2: a two-group run (one file per group) whose first file
fails to load; the run still completes with both files dispatched. -/
theorem ingestion_isolation_and_completion_witness :
    (pdfFiles envTwo ≠ [] ∧ 0 < envTwo.file_group_num) ∧
    (process_pdfs envTwo st0).outcome = .ok () ∧
    (process_pdfs envTwo st0).attempted = pdfFiles envTwo ∧
    (process_pdfs envTwo st0).groupLogs.length
      = (chunkList envTwo.file_group_num (pdfFiles envTwo)).length :=
  ⟨⟨by decide, by decide⟩,
   (ingestion_isolation_and_completion envTwo st0 (by decide) (by decide)).1,
   (ingestion_isolation_and_completion envTwo st0 (by decide) (by decide)).2.1,
   (ingestion_isolation_and_completion envTwo st0 (by decide) (by decide)).2.2.2.1⟩

/-- C3 counterexample: over `envFail` (one loadable PDF, every store write
failing) the underlying write fails — a store-write call is made, raises,
and is logged as a write error — yet the public ingestion entry
`process_pdfs` returns a successful completion. -/
theorem write_failure_masked_counterexample :
    (process_pdfs envFail st0).writeTrace ≠ [] ∧
    (process_pdfs envFail st0).groupLogs = [some PError.writeError] ∧
    (process_pdfs envFail st0).outcome = .ok () :=
  ⟨by decide, rfl, rfl⟩

/-- C3 amended: a failed store write is surfaced by raising at the batched
insertion's boundaries — `add_documents` raises a write error and the
batched-write loop of `insert_docs_chromadb` re-raises it to its caller —
and `process_pdfs_group` catches that error into its per-group log; but the
top-level `process_pdfs` still returns a successful completion, so the
"never reported as success" guarantee holds only up to the group boundary,
not at the run's public boundary. -/
theorem write_failure_surfacing_amended :
    (∀ (env : Env) (docs : List Document) (s : StoreState),
      ¬docs.isEmpty → env.failsAt docs s = true →
        add_documents env docs s = .error PError.writeError) ∧
    (∀ (env : Env) (docs : List Document) (b : Nat) (s : StoreState) (e : PError),
      ¬docs.isEmpty → (runBatches env (chunkList b docs) s).2.2 = some e →
        (insert_docs_chromadb env docs b s).2.2 = some PError.writeError) ∧
    (∀ (env : Env) (group : List String) (s : StoreState) (contents : List Document),
      loadGroup env group = .ok contents → contents.isEmpty = false →
      (split_text env contents).isEmpty = false →
      (process_pdfs_group env group s).logged
        = (insert_docs_chromadb env (split_text env contents) env.batch_num s).2.2) ∧
    (∀ (env : Env) (st : StoreState), pdfFiles env ≠ [] →
      (process_pdfs env st).outcome = .ok ()) := by
  refine ⟨?_, ?_, ?_, ?_⟩
  · intro env docs s h1 h2
    rw [add_documents, if_neg h1, if_pos h2]
  · intro env docs b s e h1 h2
    rw [insert_docs_chromadb, if_neg h1, h2,
      runBatches_error env (chunkList b docs) s e h2]
  · intro env group s contents hl h1 h2
    simp only [process_pdfs_group, hl, h1, h2, Bool.false_eq_true, if_false]
  · intro env st hfiles
    have hload : load_pdf_files env = .ok (pdfFiles env) := by
      rw [load_pdf_files, if_neg hfiles]
    simp only [process_pdfs, hload]

/-- Witness for the amended C3 at the failing store of `envFail`. -/
theorem write_failure_surfacing_amended_witness :
    (¬([exDoc] : List Document).isEmpty ∧ envFail.failsAt [exDoc] st0 = true) ∧
    add_documents envFail [exDoc] st0 = .error PError.writeError :=
  ⟨⟨by decide, rfl⟩,
   write_failure_surfacing_amended.1 envFail [exDoc] st0 (by decide) rfl⟩

/-- C6: for a directory with zero matching files, the scan raises the
no-input error, the run performs no store writes, and the collection is
left untouched (same state, same stats count); the run itself terminates
with the re-raised run error. -/
theorem empty_scan_no_writes (env : Env) (st : StoreState) (h : pdfFiles env = []) :
    load_pdf_files env = .error PError.noInput ∧
    (process_pdfs env st).writeTrace = [] ∧
    (process_pdfs env st).state = st ∧
    get_collection_stats (process_pdfs env st).state = get_collection_stats st ∧
    (process_pdfs env st).outcome = .error PError.runError := by
  have hl : load_pdf_files env = .error PError.noInput := by
    rw [load_pdf_files, if_pos h]
  have hp : process_pdfs env st =
      { attempted := [], writeTrace := [], state := st, groupLogs := [],
        outcome := .error PError.runError } := by
    simp only [process_pdfs, hl]
  exact ⟨hl, by rw [hp], by rw [hp], by rw [hp], by rw [hp]⟩

/-- Witness for C6 over the PDF-less directory of `envEmpty`. -/
theorem empty_scan_no_writes_witness :
    pdfFiles envEmpty = [] ∧
    (load_pdf_files envEmpty = .error PError.noInput ∧
     (process_pdfs envEmpty st0).writeTrace = [] ∧
     (process_pdfs envEmpty st0).state = st0 ∧
     get_collection_stats (process_pdfs envEmpty st0).state
       = get_collection_stats st0 ∧
     (process_pdfs envEmpty st0).outcome = .error PError.runError) :=
  ⟨by decide, empty_scan_no_writes envEmpty st0 (by decide)⟩

/-- C8: for a non-empty document list and batch size b > 0, with no write
failing, the batched insertion issues exactly ceil(n / b) store-write
calls, the calls are the consecutive slices of at most b documents in
original order, every document is submitted exactly once (the slices
flatten back to the input), and no error is raised. -/
theorem insert_batching (env : Env) (docs : List Document) (b : Nat) (st : StoreState)
    (hd : docs ≠ []) (hb : 0 < b) (hf : ∀ d s, env.failsAt d s = false) :
    (insert_docs_chromadb env docs b st).1 = chunkList b docs ∧
    (chunkList b docs).length = (docs.length + b - 1) / b ∧
    (chunkList b docs).flatten = docs ∧
    (∀ batch ∈ chunkList b docs, batch.length ≤ b) ∧
    (insert_docs_chromadb env docs b st).2.2 = none := by
  have hne : ¬docs.isEmpty := by simp [hd]
  have hi : insert_docs_chromadb env docs b st
      = runBatches env (chunkList b docs) st := by
    rw [insert_docs_chromadb, if_neg hne]
  refine ⟨?_, ?_, ?_, ?_, ?_⟩
  · rw [hi]; exact (runBatches_ok env hf _ st).1
  · exact chunkN_length b _ docs
  · exact chunkList_flatten b hb docs
  · exact chunkN_mem_length b _ docs
  · rw [hi]; exact (runBatches_ok env hf _ st).2

/-- Witness for C8: seven documents in batches of two make four writes. -/
theorem insert_batching_witness :
    (List.replicate 7 exDoc ≠ [] ∧ 0 < 2 ∧
       envTwo.failsAt (List.replicate 7 exDoc) st0 = false) ∧
    ((insert_docs_chromadb envTwo (List.replicate 7 exDoc) 2 st0).1
       = chunkList 2 (List.replicate 7 exDoc) ∧
     (chunkList 2 (List.replicate 7 exDoc)).length
       = ((List.replicate 7 exDoc).length + 2 - 1) / 2 ∧
     (chunkList 2 (List.replicate 7 exDoc)).flatten = List.replicate 7 exDoc ∧
     (insert_docs_chromadb envTwo (List.replicate 7 exDoc) 2 st0).2.2 = none) :=
  ⟨⟨by decide, by decide, rfl⟩,
   (insert_batching envTwo (List.replicate 7 exDoc) 2 st0 (by decide) (by decide)
     (fun _ _ => rfl)).1,
   (insert_batching envTwo (List.replicate 7 exDoc) 2 st0 (by decide) (by decide)
     (fun _ _ => rfl)).2.1,
   (insert_batching envTwo (List.replicate 7 exDoc) 2 st0 (by decide) (by decide)
     (fun _ _ => rfl)).2.2.1,
   (insert_batching envTwo (List.replicate 7 exDoc) 2 st0 (by decide) (by decide)
     (fun _ _ => rfl)).2.2.2.2⟩

end ConstructionQA
